import Mathlib

/-!
Verification of the clawmarks data-manipulation and persistence layers.

The definitions below are a shallow embedding of the TypeScript sources:
types.ts (the data model), tools.ts (the domain operations, Trail/Clawmark
variant) and storage.ts (the persistence layer). Async-ness plays no
semantic role (the whole request path runs to completion before the next
request), so operations are modelled as pure functions from the document
(and, for the persistence layer, the storage state) to the result paired
with the successor state. Generated ids and timestamps are nondeterministic
inputs (Math.random, Date), so they are passed as explicit parameters.
-/

/-- types.ts: `export type TrailStatus = 'active' | 'archived'`. -/
inductive TrailStatus where
  | active
  | archived
deriving DecidableEq, Repr

/-- types.ts: `export type ClawmarkType = ...` (six literal alternatives). -/
inductive ClawmarkType where
  | decision
  | question
  | change_needed
  | reference
  | alternative
  | dependency
deriving DecidableEq, Repr

/-- types.ts: `export interface Trail`. Optional TS fields become Option. -/
structure Trail where
  id : String
  name : String
  description : Option String
  status : TrailStatus
  created_at : String
deriving DecidableEq, Repr

/-- types.ts: `export interface Clawmark`. `line` and `column` are TS numbers
holding integers; they are modelled as Int. -/
structure Clawmark where
  id : String
  trail_id : String
  file : String
  line : Int
  column : Option Int
  annotation : String
  type : ClawmarkType
  tags : List String
  references : List String
  created_at : String
deriving DecidableEq, Repr

/-- types.ts: `export interface ClawmarksData`. -/
structure ClawmarksData where
  version : Int
  trails : List Trail
  clawmarks : List Clawmark
deriving DecidableEq, Repr

/-- types.ts: `DEFAULT_CLAWMARKS_DATA`. -/
def DEFAULT_CLAWMARKS_DATA : ClawmarksData :=
  { version := 1, trails := [], clawmarks := [] }

/-- Models `array.splice(array.findIndex(p), 1)` when a match exists:
removes the first element satisfying the predicate. -/
def removeFirst (p : α → Bool) : List α → List α
  | [] => []
  | x :: xs => if p x then xs else x :: removeFirst p xs

/-- Models `const x = array.find(p); <mutate x in place>`: rewrites the
first element satisfying the predicate with f, leaves the rest alone. -/
def updateFirst (p : α → Bool) (f : α → α) : List α → List α
  | [] => []
  | x :: xs => if p x then f x :: xs else x :: updateFirst p f xs

/-- tools.ts `createTrail`: builds a Trail with generated id, active status
and current timestamp, appends it to `data.trails`, returns it. -/
def createTrail (name : String) (description : Option String)
    (newId ts : String) (data : ClawmarksData) : Trail × ClawmarksData :=
  let trail : Trail :=
    { id := newId, name := name, description := description,
      status := .active, created_at := ts }
  (trail, { data with trails := data.trails ++ [trail] })

/-- tools.ts `archiveTrail`: finds the trail by id, sets status to archived
in place, returns it; returns the absence value when not found. -/
def archiveTrail (trailId : String) (data : ClawmarksData) :
    Option Trail × ClawmarksData :=
  match data.trails.find? (fun t => decide (t.id = trailId)) with
  | none => (none, data)
  | some t =>
    (some { t with status := .archived },
     { data with trails :=
        (updateFirst (fun t => decide (t.id = trailId))
          (fun t => { t with status := .archived }) data.trails) })

/-- tools.ts `deleteTrail`: `findIndex` + `splice` removes the first trail
with the id, then `clawmarks.filter` drops every clawmark of that trail. -/
def deleteTrail (trailId : String) (data : ClawmarksData) :
    Bool × ClawmarksData :=
  if data.trails.any (fun t => decide (t.id = trailId)) then
    (true,
     { data with
        trails := removeFirst (fun t => decide (t.id = trailId)) data.trails,
        clawmarks :=
          (data.clawmarks.filter (fun c => decide (¬ c.trail_id = trailId))) })
  else (false, data)

/-- tools.ts `addClawmark` parameter object. Optional TS fields are Option. -/
structure AddClawmarkParams where
  trail_id : String
  file : String
  line : Int
  column : Option Int
  annotation : String
  type : Option ClawmarkType
  tags : Option (List String)
deriving DecidableEq, Repr

/-- tools.ts `addClawmark`: if no trail has the requested id, returns the
structured error value `Trail <id> not found` and touches nothing; otherwise
builds the clawmark (`type` defaulted to reference, `tags` defaulted to the
empty list, `references` empty), appends it and returns it. A present empty
tags array is kept (in JS `[] || x` is `[]`). -/
def addClawmark (p : AddClawmarkParams) (newId ts : String)
    (data : ClawmarksData) : Except String Clawmark × ClawmarksData :=
  match data.trails.find? (fun t => decide (t.id = p.trail_id)) with
  | none => (.error ("Trail " ++ p.trail_id ++ " not found"), data)
  | some _ =>
    let clawmark : Clawmark :=
      { id := newId, trail_id := p.trail_id, file := p.file, line := p.line,
        column := p.column, annotation := AddClawmarkParams.annotation p,
        type := p.type.getD .reference, tags := p.tags.getD [],
        references := [], created_at := ts }
    (.ok clawmark, { data with clawmarks := data.clawmarks ++ [clawmark] })

/-- tools.ts `updateClawmark` updates object: each field optional. -/
structure ClawmarkUpdates where
  annotation : Option String
  type : Option ClawmarkType
  tags : Option (List String)
  line : Option Int
  column : Option Int
deriving DecidableEq, Repr

/-- The five independent `if (updates.f !== undefined) clawmark.f = updates.f`
assignments of tools.ts `updateClawmark`, as one record update. -/
def applyUpdates (u : ClawmarkUpdates) (c : Clawmark) : Clawmark :=
  { c with
      annotation :=
        (ClawmarkUpdates.annotation u).getD ( Clawmark.annotation c),
      type := u.type.getD c.type,
      tags := u.tags.getD c.tags,
      line := u.line.getD c.line,
      column := if u.column.isSome then u.column else c.column }

/-- tools.ts `updateClawmark`: finds the clawmark by id, overwrites exactly
the provided fields in place, returns it; absence value when not found. -/
def updateClawmark (clawmarkId : String) (u : ClawmarkUpdates)
    (data : ClawmarksData) : Option Clawmark × ClawmarksData :=
  match data.clawmarks.find? (fun c => decide (c.id = clawmarkId)) with
  | none => (none, data)
  | some c =>
    (some (applyUpdates u c),
     { data with clawmarks :=
        (updateFirst (fun c => decide (c.id = clawmarkId))
          (applyUpdates u) data.clawmarks) })

/-- tools.ts `deleteClawmark`: `findIndex` + `splice` removes the first
clawmark with the id, then every remaining clawmark has the deleted id
filtered out of its references list. -/
def deleteClawmark (clawmarkId : String) (data : ClawmarksData) :
    Bool × ClawmarksData :=
  if data.clawmarks.any (fun c => decide (c.id = clawmarkId)) then
    (true,
     { data with clawmarks :=
        ((removeFirst (fun c => decide (c.id = clawmarkId)) data.clawmarks).map
          (fun c =>
            { c with references :=
                (c.references.filter (fun r => decide (¬ r = clawmarkId))) })) })
  else (false, data)

/-- tools.ts `listClawmarks` filters object. -/
structure ClawmarkFilters where
  trail_id : Option String
  file : Option String
  type : Option ClawmarkType
  tag : Option String
deriving DecidableEq, Repr

/-- tools.ts `listClawmarks`: applies the provided filters in sequence.
Each string-valued filter is guarded by JS truthiness (`if (filters.x)`),
so a provided empty string skips that filter exactly like an absent one. -/
def listClawmarks (filters : Option ClawmarkFilters) (data : ClawmarksData) :
    List Clawmark :=
  match filters with
  | none => data.clawmarks
  | some f =>
    let cs := data.clawmarks
    let cs := match f.trail_id with
      | some tid =>
        if tid = "" then cs else cs.filter (fun c => decide (c.trail_id = tid))
      | none => cs
    let cs := match f.file with
      | some fl =>
        if fl = "" then cs else cs.filter (fun c => decide (c.file = fl))
      | none => cs
    let cs := match f.type with
      | some ty => cs.filter (fun c => decide (c.type = ty))
      | none => cs
    let cs := match f.tag with
      | some tg =>
        if tg = "" then cs else cs.filter (fun c => decide (tg ∈ c.tags))
      | none => cs
    cs

/-- tools.ts `linkClawmarks`: when both endpoints exist and the edge is not
already present, appends the target id to the references of the source. -/
def linkClawmarks (sourceId targetId : String) (data : ClawmarksData) :
    Bool × ClawmarksData :=
  match data.clawmarks.find? (fun c => decide (c.id = sourceId)),
        data.clawmarks.find? (fun c => decide (c.id = targetId)) with
  | some source, some _ =>
    if targetId ∈ source.references then (false, data)
    else
      (true,
       { data with clawmarks :=
          (updateFirst (fun c => decide (c.id = sourceId))
            (fun c => { c with references := c.references ++ [targetId] })
            data.clawmarks) })
  | _, _ => (false, data)

/-- tools.ts `unlinkClawmarks`: `indexOf` + `splice` removes the first
occurrence of the target id from the references of the source. -/
def unlinkClawmarks (sourceId targetId : String) (data : ClawmarksData) :
    Bool × ClawmarksData :=
  match data.clawmarks.find? (fun c => decide (c.id = sourceId)) with
  | none => (false, data)
  | some source =>
    if targetId ∈ source.references then
      (true,
       { data with clawmarks :=
          (updateFirst (fun c => decide (c.id = sourceId))
            (fun c => { c with references := c.references.erase targetId })
            data.clawmarks) })
    else (false, data)

/-- JS `tag.startsWith('#')` for the one-character literal: the first
character of the string is the hash character. -/
def startsWithHash (s : String) : Bool :=
  decide (s.data.head? = some '#')

/-- tools.ts tag normalization: `tag.startsWith('#') ? tag : '#' + tag`. -/
def normalizeTag (tag : String) : String :=
  if startsWithHash tag then tag else "#" ++ tag

/-- tools.ts `addTagToClawmark`: normalizes the tag, appends it to the tags
of the found clawmark unless already present; false when the clawmark is
missing or the tag already there. -/
def addTagToClawmark (clawmarkId tag : String) (data : ClawmarksData) :
    Bool × ClawmarksData :=
  let normalizedTag := normalizeTag tag
  match data.clawmarks.find? (fun c => decide (c.id = clawmarkId)) with
  | none => (false, data)
  | some c =>
    if normalizedTag ∈ c.tags then (false, data)
    else
      (true,
       { data with clawmarks :=
          (updateFirst (fun c => decide (c.id = clawmarkId))
            (fun c => { c with tags := c.tags ++ [normalizedTag] })
            data.clawmarks) })

/-- tools.ts `removeTagFromClawmark`: normalizes the tag, removes its first
occurrence from the tags of the found clawmark when present. -/
def removeTagFromClawmark (clawmarkId tag : String) (data : ClawmarksData) :
    Bool × ClawmarksData :=
  let normalizedTag := normalizeTag tag
  match data.clawmarks.find? (fun c => decide (c.id = clawmarkId)) with
  | none => (false, data)
  | some c =>
    if normalizedTag ∈ c.tags then
      (true,
       { data with clawmarks :=
          (updateFirst (fun c => decide (c.id = clawmarkId))
            (fun c => { c with tags := c.tags.erase normalizedTag })
            data.clawmarks) })
    else (false, data)

/-!
Persistence layer (storage.ts). The backing file is modelled at the level
of parsed JSON values: `file = some j` stands for a file whose text is
valid JSON parsing to `j`, `file = none` for an absent or unreadable file
(access, readFile or JSON.parse throwing, the catch branch of `load`).
`JSON.stringify` and `JSON.parse` of the host are mutually inverse between
plain objects and their text, so `save` writing `JSON.stringify(data)` is
modelled as writing the encoded JSON value. The unchecked TS cast
`JSON.parse(content) as ClawmarksData` is modelled by the typed reading
`decodeDoc`; a well-formed JSON value that is not of the document shape
(which the TS cast would silently accept as a malformed object) lies
outside the typed model and is mapped to the default-document branch, a
case no claim exercises (the file is always either absent or written by
`save`).
-/

/-- JSON values as produced by JSON.parse. Numbers occurring in this
document are integers. -/
inductive Json where
  | null
  | bool (b : Bool)
  | num (n : Int)
  | str (s : String)
  | arr (elems : List Json)
  | obj (fields : List (String × Json))

/-- Field lookup on a JSON object value. -/
def Json.getField (j : Json) (key : String) : Option Json :=
  match j with
  | .obj fields => fields.lookup key
  | _ => none

/-- String extraction from a JSON value. -/
def Json.asStr : Json → Option String
  | .str s => some s
  | _ => none

/-- Integer extraction from a JSON value. -/
def Json.asNum : Json → Option Int
  | .num n => some n
  | _ => none

/-- Array extraction from a JSON value. -/
def Json.asArr : Json → Option (List Json)
  | .arr elems => some elems
  | _ => none

/-- Serialization of a trail status, as JSON.stringify renders the enum. -/
def encodeStatus : TrailStatus → Json
  | .active => .str "active"
  | .archived => .str "archived"

/-- Typed reading of a trail status. -/
def decodeStatus : Json → Option TrailStatus
  | .str "active" => some .active
  | .str "archived" => some .archived
  | _ => none

/-- Serialization of a clawmark type, as JSON.stringify renders the enum. -/
def encodeType : ClawmarkType → Json
  | .decision => .str "decision"
  | .question => .str "question"
  | .change_needed => .str "change_needed"
  | .reference => .str "reference"
  | .alternative => .str "alternative"
  | .dependency => .str "dependency"

/-- Typed reading of a clawmark type. -/
def decodeType : Json → Option ClawmarkType
  | .str "decision" => some .decision
  | .str "question" => some .question
  | .str "change_needed" => some .change_needed
  | .str "reference" => some .reference
  | .str "alternative" => some .alternative
  | .str "dependency" => some .dependency
  | _ => none

/-- JSON.stringify of a Trail object: fields in construction order, an
undefined optional field omitted. -/
def encodeTrail (t : Trail) : Json :=
  .obj ([("id", .str t.id), ("name", .str t.name)]
    ++ (match t.description with
        | some d => [("description", .str d)]
        | none => [])
    ++ [("status", encodeStatus t.status), ("created_at", .str t.created_at)])

/-- Typed reading of a Trail from a JSON value. -/
def decodeTrail (j : Json) : Option Trail := do
  let id ← (j.getField "id").bind Json.asStr
  let name ← (j.getField "name").bind Json.asStr
  let description := (j.getField "description").bind Json.asStr
  let status ← (j.getField "status").bind decodeStatus
  let created_at ← (j.getField "created_at").bind Json.asStr
  pure { id := id, name := name, description := description,
         status := status, created_at := created_at }

/-- JSON.stringify of a Clawmark object: fields in construction order, an
undefined optional field omitted. -/
def encodeClawmark (c : Clawmark) : Json :=
  .obj ([("id", .str c.id), ("trail_id", .str c.trail_id),
         ("file", .str c.file), ("line", .num c.line)]
    ++ (match c.column with
        | some n => [("column", .num n)]
        | none => [])
    ++ [("annotation", .str ( Clawmark.annotation c)),
        ("type", encodeType c.type),
        ("tags", .arr (c.tags.map Json.str)),
        ("references", .arr (c.references.map Json.str)),
        ("created_at", .str c.created_at)])

/-- Typed reading of a Clawmark from a JSON value. -/
def decodeClawmark (j : Json) : Option Clawmark := do
  let id ← (j.getField "id").bind Json.asStr
  let trail_id ← (j.getField "trail_id").bind Json.asStr
  let file ← (j.getField "file").bind Json.asStr
  let line ← (j.getField "line").bind Json.asNum
  let column := (j.getField "column").bind Json.asNum
  let annotation ← (j.getField "annotation").bind Json.asStr
  let type ← (j.getField "type").bind decodeType
  let tags ← ((j.getField "tags").bind Json.asArr).bind
    (fun elems => elems.mapM Json.asStr)
  let references ← ((j.getField "references").bind Json.asArr).bind
    (fun elems => elems.mapM Json.asStr)
  let created_at ← (j.getField "created_at").bind Json.asStr
  pure { id := id, trail_id := trail_id, file := file, line := line,
         column := column, annotation := annotation, type := type,
         tags := tags, references := references, created_at := created_at }

/-- JSON.stringify of the whole document. -/
def encodeDoc (d : ClawmarksData) : Json :=
  .obj [("version", .num d.version),
        ("trails", .arr (d.trails.map encodeTrail)),
        ("clawmarks", .arr (d.clawmarks.map encodeClawmark))]

/-- Typed reading of the whole document from a JSON value. -/
def decodeDoc (j : Json) : Option ClawmarksData := do
  let version ← (j.getField "version").bind Json.asNum
  let trails ← ((j.getField "trails").bind Json.asArr).bind
    (fun elems => elems.mapM decodeTrail)
  let clawmarks ← ((j.getField "clawmarks").bind Json.asArr).bind
    (fun elems => elems.mapM decodeClawmark)
  pure { version := version, trails := trails, clawmarks := clawmarks }

/-- storage.ts `ClawmarksStorage` state: the on-disk content of the backing
file at filePath (none when absent or unreadable) and the in-memory cache
(`private data`, null before the first load). -/
structure ClawmarksStorage where
  file : Option Json
  data : Option ClawmarksData

/-- storage.ts `load`: returns the cache when present; otherwise reads the
file and caches the parsed document, falling back to a copy of
DEFAULT_CLAWMARKS_DATA when the file is absent or unreadable. -/
def ClawmarksStorage.load (s : ClawmarksStorage) :
    ClawmarksData × ClawmarksStorage :=
  match s.data with
  | some d => (d, s)
  | none =>
    match s.file with
    | some j =>
      match decodeDoc j with
      | some d => (d, { s with data := some d })
      | none =>
        (DEFAULT_CLAWMARKS_DATA, { s with data := some DEFAULT_CLAWMARKS_DATA })
    | none =>
      (DEFAULT_CLAWMARKS_DATA, { s with data := some DEFAULT_CLAWMARKS_DATA })

/-- storage.ts `save`: raises when nothing has been loaded, otherwise
rewrites the backing file with the serialized cache. -/
def ClawmarksStorage.save (s : ClawmarksStorage) :
    Except String ClawmarksStorage :=
  match s.data with
  | none => .error "No data to save. Call load() first."
  | some d => .ok { s with file := some (encodeDoc d) }

/-- storage.ts `updateData`: loads, invokes the updater on the live cached
document, then saves. The updater mutates in place and may throw midway, so
it is modelled as returning the document it left behind together with an
optional raised error; the cache keeps that document either way, and on a
raised error the save step never runs and the error propagates. -/
def ClawmarksStorage.updateData
    (updater : ClawmarksData → ClawmarksData × Option String)
    (s : ClawmarksStorage) : ClawmarksStorage × Except String ClawmarksData :=
  let p := ClawmarksStorage.load s
  let q := updater p.1
  let s1 := { p.2 with data := some q.1 }
  match q.2 with
  | some e => (s1, .error e)
  | none =>
    match ClawmarksStorage.save s1 with
    | .ok s2 => (s2, .ok q.1)
    | .error e => (s1, .error e)

/-- storage.ts `reload`: discards the cache and loads from disk again. -/
def ClawmarksStorage.reload (s : ClawmarksStorage) :
    ClawmarksData × ClawmarksStorage :=
  ClawmarksStorage.load { s with data := none }

/-!
Concrete states and inputs used by witnesses and counterexamples.
-/

/-- Storage state at process start: backing file absent, nothing loaded. -/
def emptyStorage : ClawmarksStorage := { file := none, data := none }

/-- A mutation callback that appends a trail and then raises. -/
def raisingTrailPush : ClawmarksData → ClawmarksData × Option String :=
  fun d =>
    ({ d with trails := (d.trails ++
        [{ id := "t_aaaaaaaa", name := "T", description := none,
           status := .active, created_at := "2024-01-01T00:00:00.000Z" }]) },
     some "raised")

/-- A concrete clawmark referencing markTwo. -/
def markOne : Clawmark :=
  { id := "c_1", trail_id := "t_abc", file := "a.ts",
    line := 3, column := some 7, annotation := "why",
    type := .decision, tags := ["#x"], references := ["c_2"],
    created_at := "ts3" }

/-- A concrete clawmark with no optional fields set. -/
def markTwo : Clawmark :=
  { id := "c_2", trail_id := "t_abc", file := "b.ts",
    line := 9, column := none, annotation := "note",
    type := .reference, tags := [], references := [],
    created_at := "ts4" }

/-- A concrete document exercising both optional fields in both states. -/
def sampleDoc : ClawmarksData :=
  { version := 1,
    trails := [{ id := "t_abc", name := "T", description := some "desc",
                 status := .archived, created_at := "ts1" },
               { id := "t_def", name := "U", description := none,
                 status := .active, created_at := "ts2" }],
    clawmarks := [markOne, markTwo] }

/-- A concrete trail with id t_1. -/
def trailA : Trail :=
  { id := "t_1", name := "A", description := none,
    status := .active, created_at := "ts1" }

/-- A concrete trail with id t_2. -/
def trailB : Trail :=
  { id := "t_2", name := "B", description := none,
    status := .active, created_at := "ts2" }

/-- A document with two trails whose marks reference across trails. -/
def crossDoc : ClawmarksData :=
  { version := 1,
    trails := [trailA, trailB],
    clawmarks := [{ id := "m_1", trail_id := "t_1", file := "a.ts",
                    line := 1, column := none, annotation := "one",
                    type := .reference, tags := [], references := [],
                    created_at := "ts3" },
                  { id := "m_2", trail_id := "t_2", file := "b.ts",
                    line := 2, column := none, annotation := "two",
                    type := .reference, tags := [], references := ["m_1"],
                    created_at := "ts4" }] }

/-- Concrete creation parameters targeting the sample document trail. -/
def c5params : AddClawmarkParams :=
  { trail_id := "t_abc", file := "n.ts", line := 4, column := none,
    annotation := "a", type := none, tags := none }

/-- Concrete partial update touching only the line field. -/
def c9updates : ClawmarkUpdates :=
  { annotation := none, type := none, tags := none, line := some 100,
    column := none }

/-- Per-field pass predicate of the trail_id filter as the code behaves: a
provided empty string is truthiness-skipped. -/
def trailPass (o : Option String) (c : Clawmark) : Bool :=
  match o with
  | some tid => decide (tid = "") || decide (c.trail_id = tid)
  | none => true

/-- Per-field pass predicate of the file filter as the code behaves. -/
def filePass (o : Option String) (c : Clawmark) : Bool :=
  match o with
  | some fl => decide (fl = "") || decide (c.file = fl)
  | none => true

/-- Per-field pass predicate of the type filter (an enum value is never an
empty string, so truthiness never skips it). -/
def typePass (o : Option ClawmarkType) (c : Clawmark) : Bool :=
  match o with
  | some ty => decide (c.type = ty)
  | none => true

/-- Per-field pass predicate of the tag filter as the code behaves. -/
def tagPass (o : Option String) (c : Clawmark) : Bool :=
  match o with
  | some tg => decide (tg = "") || decide (tg ∈ c.tags)
  | none => true

/-- Conjunction of the four pass predicates: the filter semantics the code
implements. -/
def matchesFilters (f : ClawmarkFilters) (c : Clawmark) : Bool :=
  trailPass f.trail_id c && filePass f.file c && typePass f.type c
    && tagPass f.tag c

/-- Filter semantics as the claim words it: every provided field
constrains — equality on trail_id, file and type, membership for tag —
with no empty-string exception. Stated for comparison with the code. -/
def matchesFiltersSpec (f : ClawmarkFilters) (c : Clawmark) : Bool :=
  (match f.trail_id with
   | some tid => decide (c.trail_id = tid)
   | none => true) &&
  (match f.file with
   | some fl => decide (c.file = fl)
   | none => true) &&
  (match f.type with
   | some ty => decide (c.type = ty)
   | none => true) &&
  (match f.tag with
   | some tg => decide (tg ∈ c.tags)
   | none => true)

/-- A document with one trail and two marks, one of which has an empty
file field. -/
def emptyFileDoc : ClawmarksData :=
  { version := 1,
    trails := [{ id := "t_1", name := "A", description := none,
                 status := .active, created_at := "ts1" }],
    clawmarks := [{ id := "m_1", trail_id := "t_1", file := "",
                    line := 1, column := none, annotation := "one",
                    type := .reference, tags := [], references := [],
                    created_at := "ts2" },
                  { id := "m_2", trail_id := "t_1", file := "a.ts",
                    line := 2, column := none, annotation := "two",
                    type := .reference, tags := [], references := [],
                    created_at := "ts3" }] }

/-- The filter object providing file as the empty string. -/
def emptyFileFilter : ClawmarkFilters :=
  { trail_id := none, file := some "", type := none, tag := none }

/-- One mutating domain operation together with its nondeterministic
inputs (generated id, timestamp). Read-only operations return snapshots
and do not change the document, so they are omitted from reachability. -/
inductive Op where
  | createTrail (name : String) (description : Option String)
      (newId ts : String)
  | archiveTrail (trailId : String)
  | deleteTrail (trailId : String)
  | addClawmark (p : AddClawmarkParams) (newId ts : String)
  | updateClawmark (clawmarkId : String) (u : ClawmarkUpdates)
  | deleteClawmark (clawmarkId : String)
  | linkClawmarks (sourceId targetId : String)
  | unlinkClawmarks (sourceId targetId : String)
  | addTagToClawmark (clawmarkId tag : String)
  | removeTagFromClawmark (clawmarkId tag : String)

/-- The document produced by one operation (result value dropped). -/
def applyOp (o : Op) (d : ClawmarksData) : ClawmarksData :=
  match o with
  | .createTrail name description newId ts =>
      (createTrail name description newId ts d).2
  | .archiveTrail trailId => (archiveTrail trailId d).2
  | .deleteTrail trailId => (deleteTrail trailId d).2
  | .addClawmark p newId ts => (addClawmark p newId ts d).2
  | .updateClawmark clawmarkId u => (updateClawmark clawmarkId u d).2
  | .deleteClawmark clawmarkId => (deleteClawmark clawmarkId d).2
  | .linkClawmarks sourceId targetId => (linkClawmarks sourceId targetId d).2
  | .unlinkClawmarks sourceId targetId =>
      (unlinkClawmarks sourceId targetId d).2
  | .addTagToClawmark clawmarkId tag => (addTagToClawmark clawmarkId tag d).2
  | .removeTagFromClawmark clawmarkId tag =>
      (removeTagFromClawmark clawmarkId tag d).2

/-- The document reached by a sequence of operations started on the
default document. -/
def runOps (ops : List Op) : ClawmarksData :=
  ops.foldl (fun d o => applyOp o d) DEFAULT_CLAWMARKS_DATA

/-- Well-formed tag list: every tag starts with the hash character and
there are no duplicates. -/
def tagsOK (tags : List String) : Prop :=
  (∀ t ∈ tags, startsWithHash t = true) ∧ tags.Nodup

instance (tags : List String) : Decidable (tagsOK tags) :=
  inferInstanceAs
    (Decidable ((∀ t ∈ tags, startsWithHash t = true) ∧ tags.Nodup))

/-- Every clawmark of the document carries a well-formed tag list. -/
def tagsWF (d : ClawmarksData) : Prop :=
  ∀ c ∈ d.clawmarks, tagsOK c.tags

instance (d : ClawmarksData) : Decidable (tagsWF d) :=
  inferInstanceAs (Decidable (∀ c ∈ d.clawmarks, tagsOK c.tags))

/-- Well-formedness of an optional verbatim tags argument. -/
def optTagsOK : Option (List String) → Prop
  | some ts => tagsOK ts
  | none => True

instance : (o : Option (List String)) → Decidable (optTagsOK o)
  | some ts => inferInstanceAs (Decidable (tagsOK ts))
  | none => inferInstanceAs (Decidable True)

/-- The tags arguments an operation stores verbatim are themselves
well-formed; all other operations are unconstrained. -/
def opTagsOK : Op → Prop
  | .addClawmark p _ _ => optTagsOK p.tags
  | .updateClawmark _ u => optTagsOK u.tags
  | _ => True

instance : (o : Op) → Decidable (opTagsOK o)
  | .createTrail _ _ _ _ => inferInstanceAs (Decidable True)
  | .archiveTrail _ => inferInstanceAs (Decidable True)
  | .deleteTrail _ => inferInstanceAs (Decidable True)
  | .addClawmark p _ _ => inferInstanceAs (Decidable (optTagsOK p.tags))
  | .updateClawmark _ u => inferInstanceAs (Decidable (optTagsOK u.tags))
  | .deleteClawmark _ => inferInstanceAs (Decidable True)
  | .linkClawmarks _ _ => inferInstanceAs (Decidable True)
  | .unlinkClawmarks _ _ => inferInstanceAs (Decidable True)
  | .addTagToClawmark _ _ => inferInstanceAs (Decidable True)
  | .removeTagFromClawmark _ _ => inferInstanceAs (Decidable True)

/-- Operations reaching a document with an unnormalized, duplicated tag:
the tags argument of addClawmark is stored verbatim. -/
def badOps : List Op :=
  [.createTrail "T" none "t_cccccccc" "ts1",
   .addClawmark { trail_id := "t_cccccccc", file := "a.ts", line := 1,
                  column := none, annotation := "a", type := none,
                  tags := some ["x", "x"] } "c_bbbbbbbb" "ts2"]

/-- Operations whose verbatim tags arguments are well-formed, exercising
every kind of mutation. -/
def goodOps : List Op :=
  [.createTrail "T" none "t_cccccccc" "ts1",
   .addClawmark { trail_id := "t_cccccccc", file := "a.ts", line := 1,
                  column := none, annotation := "a", type := none,
                  tags := some ["#x"] } "c_bbbbbbbb" "ts2",
   .addClawmark { trail_id := "t_cccccccc", file := "b.ts", line := 2,
                  column := some 3, annotation := "b", type := some .decision,
                  tags := none } "c_dddddddd" "ts3",
   .addTagToClawmark "c_bbbbbbbb" "y",
   .addTagToClawmark "c_bbbbbbbb" "#x",
   .updateClawmark "c_dddddddd"
     { annotation := none, type := none, tags := some ["#z", "#w"],
       line := some 9, column := none },
   .removeTagFromClawmark "c_dddddddd" "z",
   .linkClawmarks "c_bbbbbbbb" "c_dddddddd",
   .unlinkClawmarks "c_bbbbbbbb" "c_dddddddd",
   .archiveTrail "t_cccccccc",
   .deleteClawmark "c_dddddddd",
   .deleteTrail "t_zzzzzzzz"]

/-!
Helper lemmas about the first-match list operations and the storage state.
-/

theorem find?_first (p : α → Bool) (pre post : List α) (m : α)
    (hpre : ∀ x ∈ pre, p x = false) (hm : p m = true) :
    (pre ++ m :: post).find? p = some m := by
  induction pre with
  | nil => simp [List.find?, hm]
  | cons x xs ih =>
    have hx := hpre x (by simp)
    simp only [List.cons_append, List.find?, hx]
    exact ih fun y hy => hpre y (by simp [hy])

theorem find?_some_split (p : α → Bool) (l : List α) (c : α)
    (h : l.find? p = some c) :
    ∃ pre post, l = pre ++ c :: post ∧ (∀ x ∈ pre, p x = false) ∧
      p c = true := by
  induction l with
  | nil => simp [List.find?] at h
  | cons x xs ih =>
    by_cases hx : p x
    · simp only [List.find?, hx] at h
      simp at h
      subst h
      exact ⟨[], xs, by simp, by simp, hx⟩
    · simp only [List.find?, Bool.of_not_eq_true hx] at h
      obtain ⟨pre, post, h1, h2, h3⟩ := ih h
      exact ⟨x :: pre, post, by simp [h1], by
        intro y hy
        rcases List.mem_cons.mp hy with rfl | hy
        · exact Bool.of_not_eq_true hx
        · exact h2 y hy, h3⟩

theorem updateFirst_first (p : α → Bool) (f : α → α) (pre post : List α)
    (m : α) (hpre : ∀ x ∈ pre, p x = false) (hm : p m = true) :
    updateFirst p f (pre ++ m :: post) = pre ++ f m :: post := by
  induction pre with
  | nil => simp [updateFirst, hm]
  | cons x xs ih =>
    have hx := hpre x (by simp)
    simp only [List.cons_append, updateFirst, hx]
    simp [ih fun y hy => hpre y (by simp [hy])]

theorem removeFirst_first (p : α → Bool) (pre post : List α) (m : α)
    (hpre : ∀ x ∈ pre, p x = false) (hm : p m = true) :
    removeFirst p (pre ++ m :: post) = pre ++ post := by
  induction pre with
  | nil => simp [removeFirst, hm]
  | cons x xs ih =>
    have hx := hpre x (by simp)
    simp only [List.cons_append, removeFirst, hx]
    simp [ih fun y hy => hpre y (by simp [hy])]

theorem mem_removeFirst (p : α → Bool) (l : List α) (x : α)
    (h : x ∈ removeFirst p l) : x ∈ l := by
  induction l with
  | nil => simp [removeFirst] at h
  | cons y ys ih =>
    simp only [removeFirst] at h
    by_cases hy : p y
    · rw [if_pos hy] at h
      exact List.mem_cons_of_mem y h
    · rw [if_neg hy] at h
      rcases List.mem_cons.mp h with rfl | h
      · exact List.mem_cons_self x ys
      · exact List.mem_cons_of_mem y (ih h)

theorem length_removeFirst (p : α → Bool) (l : List α)
    (h : l.any p = true) : (removeFirst p l).length + 1 = l.length := by
  induction l with
  | nil => simp at h
  | cons x xs ih =>
    simp only [removeFirst]
    by_cases hx : p x
    · rw [if_pos hx]; simp
    · rw [if_neg hx]
      simp only [List.any_cons, Bool.of_not_eq_true hx, Bool.false_or] at h
      simp [ih h]

theorem length_filter_not_add_countP (p : α → Prop) [DecidablePred p]
    (l : List α) :
    (l.filter (fun a => decide (¬ p a))).length
      + l.countP (fun a => decide (p a)) = l.length := by
  induction l with
  | nil => rfl
  | cons x xs ih =>
    by_cases hx : p x <;>
      simp [List.filter_cons, List.countP_cons, hx, ← ih] <;> omega

theorem load_file_eq (s : ClawmarksStorage) :
    (ClawmarksStorage.load s).2.file = s.file := by
  rcases s with ⟨file, data⟩
  cases data with
  | some d => rfl
  | none =>
    cases file with
    | none => rfl
    | some j =>
      rcases h : decodeDoc j with _ | d <;>
        simp [ClawmarksStorage.load, h]

/-!
Round-trip lemmas: the typed reading inverts serialization.
-/

theorem decodeStatus_encodeStatus (s : TrailStatus) :
    decodeStatus (encodeStatus s) = some s := by
  cases s <;> rfl

theorem decodeType_encodeType (t : ClawmarkType) :
    decodeType (encodeType t) = some t := by
  cases t <;> rfl

theorem mapM_loop_decode_encode {β : Type} {f : β → Json}
    {g : Json → Option β} (h : ∀ b, g (f b) = some b) (l acc : List β) :
    List.mapM.loop g (l.map f) acc = some (acc.reverse ++ l) := by
  induction l generalizing acc with
  | nil => simp [List.mapM.loop]
  | cons x xs ih => simp [List.mapM.loop, h, ih]

theorem mapM_decode_encode {β : Type} {f : β → Json} {g : Json → Option β}
    (h : ∀ b, g (f b) = some b) (l : List β) :
    (l.map f).mapM g = some l := by
  have := mapM_loop_decode_encode h l []
  simpa [List.mapM] using this

theorem decodeTrail_encodeTrail (t : Trail) :
    decodeTrail (encodeTrail t) = some t := by
  rcases t with ⟨id, name, desc, status, created⟩
  cases desc <;> cases status <;> rfl

theorem decodeClawmark_encodeClawmark (c : Clawmark) :
    decodeClawmark (encodeClawmark c) = some c := by
  rcases c with ⟨id, trail_id, file, line, column, ann, ty, tags, refs, created⟩
  cases column <;>
    simp [decodeClawmark, encodeClawmark, Json.getField, List.lookup,
      Json.asStr, Json.asNum, Json.asArr, decodeType_encodeType,
      mapM_loop_decode_encode
        (fun s => (rfl : Json.asStr (Json.str s) = some s))]

theorem decodeDoc_encodeDoc (d : ClawmarksData) :
    decodeDoc (encodeDoc d) = some d := by
  rcases d with ⟨version, trails, clawmarks⟩
  simp [decodeDoc, encodeDoc, Json.getField, List.lookup, Json.asNum,
    Json.asArr, mapM_loop_decode_encode decodeTrail_encodeTrail,
    mapM_loop_decode_encode decodeClawmark_encodeClawmark]

/-!
Persistence-layer claims.
-/

/-- C1: for every storage state and every mutation callback that raises,
updateData performs no save — the on-disk content after the call is exactly
what it was before — and the error propagates instead of a document being
returned. -/
theorem updateData_raising_callback_no_save
    (updater : ClawmarksData → ClawmarksData × Option String)
    (s : ClawmarksStorage) (e : String)
    (h : (updater (ClawmarksStorage.load s).1).2 = some e) :
    (ClawmarksStorage.updateData updater s).1.file = s.file ∧
    (ClawmarksStorage.updateData updater s).2 = .error e := by
  constructor
  · simp [ClawmarksStorage.updateData, h, load_file_eq]
  · simp [ClawmarksStorage.updateData, h]

/-- C1 witness: a concrete raising callback on the initial storage state. -/
theorem updateData_raising_callback_no_save_witness :
    (ClawmarksStorage.updateData (fun d => (d, some "boom")) emptyStorage).1.file
        = emptyStorage.file ∧
    (ClawmarksStorage.updateData (fun d => (d, some "boom")) emptyStorage).2
        = .error "boom" :=
  updateData_raising_callback_no_save (fun d => (d, some "boom"))
    emptyStorage "boom" rfl

/-- C6 counterexample: a mutation whose callback raises leaves the backing
file absent, yet the next load call in the same process returns the cached
partial mutation, not the default document. -/
theorem load_absent_file_counterexample :
    (ClawmarksStorage.updateData raisingTrailPush emptyStorage).1.file = none ∧
    (ClawmarksStorage.load
        (ClawmarksStorage.updateData raisingTrailPush emptyStorage).1).1
      ≠ DEFAULT_CLAWMARKS_DATA := by
  exact ⟨rfl, by decide⟩

/-- C6 (amended): on a call holding no cached document — the first load, or
a load right after reload — an absent or unreadable backing file makes load
return the default document (version 1, both collections empty) and cache
it. -/
theorem load_default_when_uncached
    (s : ClawmarksStorage) (h1 : s.data = none) (h2 : s.file = none) :
    ClawmarksStorage.load s =
      (DEFAULT_CLAWMARKS_DATA,
       { s with data := some DEFAULT_CLAWMARKS_DATA }) := by
  rcases s with ⟨file, data⟩
  simp only at h1 h2
  subst h1; subst h2
  rfl

/-- C6 witness: the initial storage state. -/
theorem load_default_when_uncached_witness :
    ClawmarksStorage.load emptyStorage =
      (DEFAULT_CLAWMARKS_DATA,
       { emptyStorage with data := some DEFAULT_CLAWMARKS_DATA }) :=
  load_default_when_uncached emptyStorage rfl rfl

/-- C7: for every cached document, save succeeds and a subsequent reload
yields a document structurally equal to the cached one, optional fields
included. -/
theorem save_reload_roundtrip (s : ClawmarksStorage) (d : ClawmarksData)
    (h : s.data = some d) :
    ∃ s1, ClawmarksStorage.save s = .ok s1 ∧
      (ClawmarksStorage.reload s1).1 = d := by
  refine ⟨{ s with file := some (encodeDoc d) }, ?_, ?_⟩
  · simp [ClawmarksStorage.save, h]
  · simp [ClawmarksStorage.reload, ClawmarksStorage.load, decodeDoc_encodeDoc]

/-- C7 witness: a storage state caching the sample document. -/
theorem save_reload_roundtrip_witness :
    ∃ s1, ClawmarksStorage.save { file := none, data := some sampleDoc }
        = .ok s1 ∧
      (ClawmarksStorage.reload s1).1 = sampleDoc :=
  save_reload_roundtrip { file := none, data := some sampleDoc } sampleDoc rfl

/-!
Domain-operation claims: deletions, creation, partial update, frames.
-/

/-- C3: deleting an existing clawmark removes exactly that clawmark — in
the first-match decomposition of the collection the result is the
surrounding marks, in order, each with the deleted id filtered out of its
references — returns true, shrinks the collection by one, and afterwards
no remaining clawmark has the deleted id in its references list; deleting
an unknown id returns false and changes nothing. -/
theorem deleteClawmark_removes_and_prunes (d : ClawmarksData)
    (cid : String) :
    (∀ pre post m, d.clawmarks = pre ++ m :: post → m.id = cid →
      (∀ c ∈ pre, c.id ≠ cid) →
      deleteClawmark cid d
          = (true, { d with clawmarks :=
              ((pre ++ post).map (fun c =>
                { c with references :=
                    (c.references.filter
                      (fun r => decide (¬ r = cid))) })) }) ∧
      (deleteClawmark cid d).2.clawmarks.length + 1 = d.clawmarks.length ∧
      ∀ c ∈ (deleteClawmark cid d).2.clawmarks, cid ∉ c.references) ∧
    ((∀ c ∈ d.clawmarks, c.id ≠ cid) → deleteClawmark cid d = (false, d)) := by
  constructor
  · intro pre post m h1 h2 h3
    have hm : (fun c => decide (c.id = cid)) m = true := by simp [h2]
    have hpre : ∀ x ∈ pre, (fun c => decide (c.id = cid)) x = false := by
      intro x hx
      simp [h3 x hx]
    have hany : d.clawmarks.any (fun c => decide (c.id = cid)) = true := by
      rw [h1]
      exact List.any_eq_true.mpr ⟨m, by simp, hm⟩
    have heq : deleteClawmark cid d
        = (true, { d with clawmarks :=
            ((pre ++ post).map (fun c =>
              { c with references :=
                  (c.references.filter
                    (fun r => decide (¬ r = cid))) })) }) := by
      simp only [deleteClawmark, hany, if_true]
      rw [h1, removeFirst_first _ _ _ _ hpre hm]
    refine ⟨heq, ?_, ?_⟩
    · rw [heq, h1]
      simp
      omega
    · intro c' hc'
      rw [heq] at hc'
      simp only [List.mem_map] at hc'
      obtain ⟨c'', _, rfl⟩ := hc'
      simp [List.mem_filter]
  · intro hall
    have hany : d.clawmarks.any (fun c => decide (c.id = cid)) = false := by
      rw [List.any_eq_false]
      intro c hc
      simp [hall c hc]
    simp [deleteClawmark, hany]

/-- C3 witness: deleting markTwo from the sample document removes exactly
markTwo and prunes the reference held by markOne. -/
theorem deleteClawmark_removes_and_prunes_witness :
    deleteClawmark "c_2" sampleDoc
        = (true, { sampleDoc with clawmarks :=
            (([markOne] ++ []).map (fun c : Clawmark =>
              { c with references :=
                  (c.references.filter
                    (fun r => decide (¬ r = "c_2"))) })) }) ∧
    (deleteClawmark "c_2" sampleDoc).2.clawmarks.length + 1
        = sampleDoc.clawmarks.length ∧
    ∀ c ∈ (deleteClawmark "c_2" sampleDoc).2.clawmarks,
      "c_2" ∉ c.references :=
  (deleteClawmark_removes_and_prunes sampleDoc "c_2").1 [markOne] [] markTwo
    rfl rfl (by decide)

/-- C4: deleting an existing trail removes exactly that trail — in the
first-match decomposition of the trail collection the result keeps the
surrounding trails, in order — returns true, removes exactly the clawmarks
whose trail_id equals the deleted id, and every surviving clawmark is an
unchanged element of the original collection (references intact, so a
reference to a deleted clawmark dangles); an unknown id returns false and
changes nothing. -/
theorem deleteTrail_cascades (d : ClawmarksData) (tid : String) :
    (∀ pre post t, d.trails = pre ++ t :: post → t.id = tid →
      (∀ t' ∈ pre, t'.id ≠ tid) →
      deleteTrail tid d
          = (true, { d with
              trails := pre ++ post,
              clawmarks :=
                (d.clawmarks.filter
                  (fun c => decide (¬ c.trail_id = tid))) }) ∧
      (deleteTrail tid d).2.clawmarks.length
          + d.clawmarks.countP (fun c => decide (c.trail_id = tid))
          = d.clawmarks.length ∧
      ∀ c ∈ (deleteTrail tid d).2.clawmarks, c ∈ d.clawmarks) ∧
    ((∀ t ∈ d.trails, t.id ≠ tid) → deleteTrail tid d = (false, d)) := by
  constructor
  · intro pre post t h1 h2 h3
    have hm : (fun t => decide (t.id = tid)) t = true := by simp [h2]
    have hpre : ∀ x ∈ pre, (fun t => decide (t.id = tid)) x = false := by
      intro x hx
      simp [h3 x hx]
    have hany : d.trails.any (fun t => decide (t.id = tid)) = true := by
      rw [h1]
      exact List.any_eq_true.mpr ⟨t, by simp, hm⟩
    have heq : deleteTrail tid d
        = (true, { d with
            trails := pre ++ post,
            clawmarks :=
              (d.clawmarks.filter
                (fun c => decide (¬ c.trail_id = tid))) }) := by
      simp only [deleteTrail, hany, if_true]
      rw [h1, removeFirst_first _ _ _ _ hpre hm]
    refine ⟨heq, ?_, ?_⟩
    · rw [heq]
      exact length_filter_not_add_countP (fun c => c.trail_id = tid)
        d.clawmarks
    · intro c hc
      rw [heq] at hc
      exact List.mem_of_mem_filter hc
  · intro hall
    have hany : d.trails.any (fun t => decide (t.id = tid)) = false := by
      rw [List.any_eq_false]
      intro t ht
      simp [hall t ht]
    simp [deleteTrail, hany]

/-- C4 witness: deleting trail t_1 from crossDoc removes exactly trailA
and its one mark, leaving trailB and its mark untouched, the now-dangling
reference included. -/
theorem deleteTrail_cascades_witness :
    deleteTrail "t_1" crossDoc
        = (true, { crossDoc with
            trails := [] ++ [trailB],
            clawmarks :=
              (crossDoc.clawmarks.filter
                (fun c => decide (¬ c.trail_id = "t_1"))) }) ∧
    (deleteTrail "t_1" crossDoc).2.clawmarks.length
        + crossDoc.clawmarks.countP (fun c => decide (c.trail_id = "t_1"))
        = crossDoc.clawmarks.length ∧
    ∀ c ∈ (deleteTrail "t_1" crossDoc).2.clawmarks, c ∈ crossDoc.clawmarks :=
  (deleteTrail_cascades crossDoc "t_1").1 [] [trailB] trailA rfl rfl
    (by decide)

/-- C5: adding a clawmark against an unknown trail id returns the
structured error value naming that trail and leaves the document unchanged;
against an existing trail it appends and returns a clawmark whose type
defaults to reference, tags default to empty, and references start
empty. -/
theorem addClawmark_validates_trail (p : AddClawmarkParams)
    (newId ts : String) (d : ClawmarksData) :
    ((∀ t ∈ d.trails, t.id ≠ p.trail_id) →
      addClawmark p newId ts d
          = (.error ("Trail " ++ p.trail_id ++ " not found"), d) ∧
      ∃ s1 s2, ("Trail " ++ p.trail_id ++ " not found")
          = s1 ++ p.trail_id ++ s2) ∧
    ((∃ t ∈ d.trails, t.id = p.trail_id) →
      ∃ c, addClawmark p newId ts d
          = (.ok c, { d with clawmarks := d.clawmarks ++ [c] }) ∧
        c.id = newId ∧ c.trail_id = p.trail_id ∧ c.file = p.file ∧
        c.line = p.line ∧ c.column = p.column ∧
        Clawmark.annotation c = AddClawmarkParams.annotation p ∧
        c.type = p.type.getD .reference ∧ c.tags = p.tags.getD [] ∧
        c.references = [] ∧ c.created_at = ts) := by
  constructor
  · intro hall
    have hf : d.trails.find? (fun t => decide (t.id = p.trail_id)) = none := by
      rw [List.find?_eq_none]
      intro t ht
      simp [hall t ht]
    exact ⟨by simp [addClawmark, hf], "Trail ", " not found", rfl⟩
  · intro hex
    obtain ⟨t, ht, htid⟩ := hex
    have hs : (d.trails.find? (fun t => decide (t.id = p.trail_id))).isSome := by
      rw [List.find?_isSome]
      exact ⟨t, ht, by simp [htid]⟩
    obtain ⟨t', ht'⟩ := Option.isSome_iff_exists.mp hs
    refine ⟨{ id := newId, trail_id := p.trail_id, file := p.file,
              line := p.line, column := p.column,
              annotation := AddClawmarkParams.annotation p,
              type := p.type.getD .reference, tags := p.tags.getD [],
              references := [], created_at := ts }, ?_,
            rfl, rfl, rfl, rfl, rfl, rfl, rfl, rfl, rfl, rfl⟩
    simp [addClawmark, ht']

/-- C5 witness: the same parameters against the sample document (trail
exists) and the default document (trail does not exist). -/
theorem addClawmark_validates_trail_witness :
    (∃ c, addClawmark c5params "c_9" "ts9" sampleDoc
        = (.ok c, { sampleDoc with
                      clawmarks := sampleDoc.clawmarks ++ [c] }) ∧
      c.id = "c_9" ∧ c.trail_id = c5params.trail_id ∧
      c.file = c5params.file ∧ c.line = c5params.line ∧
      c.column = c5params.column ∧
      Clawmark.annotation c = AddClawmarkParams.annotation c5params ∧
      c.type = (c5params.type).getD .reference ∧
      c.tags = (c5params.tags).getD [] ∧
      c.references = [] ∧ c.created_at = "ts9") ∧
    addClawmark c5params "c_9" "ts9" DEFAULT_CLAWMARKS_DATA
        = (.error ("Trail " ++ c5params.trail_id ++ " not found"),
           DEFAULT_CLAWMARKS_DATA) :=
  ⟨(addClawmark_validates_trail c5params "c_9" "ts9" sampleDoc).2 (by decide),
   ((addClawmark_validates_trail c5params "c_9" "ts9"
      DEFAULT_CLAWMARKS_DATA).1 (by decide)).1⟩

/-- C9: updating an existing clawmark overwrites exactly the provided
fields; id, trail_id, file, references and created_at are untouched, every
other clawmark and every trail is unchanged, and the updated clawmark is
returned. The clawmark is located by the first-match decomposition of the
collection. -/
theorem updateClawmark_partial_update (d : ClawmarksData) (cid : String)
    (u : ClawmarkUpdates) (pre post : List Clawmark) (m : Clawmark)
    (h1 : d.clawmarks = pre ++ m :: post) (h2 : m.id = cid)
    (h3 : ∀ c ∈ pre, c.id ≠ cid) :
    ∃ m', updateClawmark cid u d
        = (some m', { d with clawmarks := pre ++ m' :: post }) ∧
      m'.id = m.id ∧ m'.trail_id = m.trail_id ∧ m'.file = m.file ∧
      m'.references = m.references ∧ m'.created_at = m.created_at ∧
      Clawmark.annotation m'
          = (ClawmarkUpdates.annotation u).getD ( Clawmark.annotation m) ∧
      m'.type = u.type.getD m.type ∧ m'.tags = u.tags.getD m.tags ∧
      m'.line = u.line.getD m.line ∧
      m'.column = (if (u.column).isSome then u.column else m.column) := by
  have hm : (fun c => decide (c.id = cid)) m = true := by simp [h2]
  have hpre : ∀ x ∈ pre, (fun c => decide (c.id = cid)) x = false := by
    intro x hx
    simp [h3 x hx]
  have hfind : (pre ++ m :: post).find? (fun c => decide (c.id = cid))
      = some m := find?_first _ _ _ _ hpre hm
  refine ⟨applyUpdates u m, ?_, rfl, rfl, rfl, rfl, rfl, rfl, rfl, rfl,
          rfl, rfl⟩
  simp only [updateClawmark, h1, hfind,
    updateFirst_first _ _ _ _ _ hpre hm]

/-- C9 witness: updating only the line of markTwo in the sample document. -/
theorem updateClawmark_partial_update_witness :
    ∃ m', updateClawmark "c_2" c9updates sampleDoc
        = (some m', { sampleDoc with clawmarks := [markOne] ++ m' :: [] }) ∧
      m'.id = markTwo.id ∧ m'.trail_id = markTwo.trail_id ∧
      m'.file = markTwo.file ∧ m'.references = markTwo.references ∧
      m'.created_at = markTwo.created_at ∧
      Clawmark.annotation m'
          = (ClawmarkUpdates.annotation c9updates).getD
              ( Clawmark.annotation markTwo) ∧
      m'.type = (c9updates.type).getD markTwo.type ∧
      m'.tags = (c9updates.tags).getD markTwo.tags ∧
      m'.line = (c9updates.line).getD markTwo.line ∧
      m'.column
          = (if (c9updates.column).isSome then c9updates.column
             else markTwo.column) :=
  updateClawmark_partial_update sampleDoc "c_2" c9updates [markOne] []
    markTwo rfl rfl (by decide)

/-- C10: every mutating operation that signals not-found on an id resolving
to no entity leaves the document value entirely unchanged: archiveTrail and
updateClawmark return the absence value, and deleteClawmark,
unlinkClawmarks, addTagToClawmark and removeTagFromClawmark return false,
each paired with the untouched document. -/
theorem notfound_mutations_leave_document_unchanged (d : ClawmarksData)
    (tid cid target tag : String) (u : ClawmarkUpdates) :
    ((∀ t ∈ d.trails, t.id ≠ tid) → archiveTrail tid d = (none, d)) ∧
    ((∀ c ∈ d.clawmarks, c.id ≠ cid) →
      updateClawmark cid u d = (none, d) ∧
      deleteClawmark cid d = (false, d) ∧
      unlinkClawmarks cid target d = (false, d) ∧
      addTagToClawmark cid tag d = (false, d) ∧
      removeTagFromClawmark cid tag d = (false, d)) := by
  constructor
  · intro hall
    have hf : d.trails.find? (fun t => decide (t.id = tid)) = none := by
      rw [List.find?_eq_none]
      intro t ht
      simp [hall t ht]
    simp [archiveTrail, hf]
  · intro hall
    have hf : d.clawmarks.find? (fun c => decide (c.id = cid)) = none := by
      rw [List.find?_eq_none]
      intro c hc
      simp [hall c hc]
    have hany : d.clawmarks.any (fun c => decide (c.id = cid)) = false := by
      rw [List.any_eq_false]
      intro c hc
      simp [hall c hc]
    refine ⟨by simp [updateClawmark, hf], by simp [deleteClawmark, hany],
            by simp [unlinkClawmarks, hf], by simp [addTagToClawmark, hf],
            by simp [removeTagFromClawmark, hf]⟩

/-- C10 witness: unknown trail and clawmark ids against the sample
document. -/
theorem notfound_mutations_leave_document_unchanged_witness :
    archiveTrail "t_zz" sampleDoc = (none, sampleDoc) ∧
    updateClawmark "c_zz" c9updates sampleDoc = (none, sampleDoc) ∧
    deleteClawmark "c_zz" sampleDoc = (false, sampleDoc) ∧
    unlinkClawmarks "c_zz" "c_1" sampleDoc = (false, sampleDoc) ∧
    addTagToClawmark "c_zz" "#x" sampleDoc = (false, sampleDoc) ∧
    removeTagFromClawmark "c_zz" "#x" sampleDoc = (false, sampleDoc) := by
  have h := notfound_mutations_leave_document_unchanged sampleDoc
    "t_zz" "c_zz" "c_1" "#x" c9updates
  have h2 := h.2 (by decide)
  exact ⟨h.1 (by decide), h2.1, h2.2.1, h2.2.2.1, h2.2.2.2.1, h2.2.2.2.2⟩

/-- C8 counterexample: filtering emptyFileDoc by the provided file value ""
returns both marks — the truthiness guard skips the filter — and not, as
the claim states, only the mark whose file equals "". -/
theorem listClawmarks_truthiness_counterexample :
    listClawmarks (some emptyFileFilter) emptyFileDoc
        ≠ emptyFileDoc.clawmarks.filter (matchesFiltersSpec emptyFileFilter)
      ∧ (listClawmarks (some emptyFileFilter) emptyFileDoc).length = 2 := by
  decide

/-- C8 (amended): listClawmarks returns exactly the marks, in storage
order, that satisfy the conjunction of the provided filter fields, where a
provided empty-string trail_id, file or tag imposes no constraint (the JS
truthiness guard), and an absent filter object returns the whole
collection. -/
theorem listClawmarks_filter_conjunction (f : ClawmarkFilters)
    (d : ClawmarksData) :
    listClawmarks (some f) d = d.clawmarks.filter (matchesFilters f) ∧
    listClawmarks none d = d.clawmarks := by
  refine ⟨?_, rfl⟩
  rcases f with ⟨tid, fl, ty, tg⟩
  cases tid <;> cases fl <;> cases ty <;> cases tg <;>
    simp only [listClawmarks] <;>
    (try split_ifs) <;>
    (try simp only [List.filter_filter]) <;>
    symm <;>
    (first
      | (rw [List.filter_eq_self]
         intro a ha
         simp [matchesFilters, trailPass, filePass, typePass, tagPass, *])
      | (refine List.filter_congr ?_
         intro a ha
         simp [matchesFilters, trailPass, filePass, typePass, tagPass,
           Bool.and_assoc, Bool.and_comm, Bool.and_left_comm, *]))

/-!
Tag well-formedness is preserved by every operation whose verbatim tags
arguments are well-formed.
-/

theorem startsWithHash_normalizeTag (tag : String) :
    startsWithHash (normalizeTag tag) = true := by
  unfold normalizeTag
  by_cases h : startsWithHash tag = true
  · rw [if_pos h]
    exact h
  · rw [if_neg h]
    unfold startsWithHash
    simp [String.data_append]

theorem tagsOK_append_normalized (l : List String) (tag : String)
    (h : tagsOK l) (hmem : normalizeTag tag ∉ l) :
    tagsOK (l ++ [normalizeTag tag]) := by
  refine ⟨?_, ?_⟩
  · intro t ht
    rcases List.mem_append.mp ht with ht | ht
    · exact h.1 t ht
    · rw [List.mem_singleton.mp ht]
      exact startsWithHash_normalizeTag tag
  · simp [List.nodup_append, h.2, hmem]

theorem tagsOK_erase (l : List String) (a : String) (h : tagsOK l) :
    tagsOK (l.erase a) :=
  ⟨fun t ht => h.1 t (List.erase_subset _ _ ht), h.2.erase a⟩

theorem tagsWF_updateFirst (p : Clawmark → Bool) (f : Clawmark → Clawmark)
    (l : List Clawmark) (h : ∀ c ∈ l, tagsOK c.tags)
    (hf : ∀ c ∈ l, p c = true → tagsOK (f c).tags) :
    ∀ c ∈ updateFirst p f l, tagsOK c.tags := by
  induction l with
  | nil =>
    intro c hc
    simp [updateFirst] at hc
  | cons x xs ih =>
    intro c hc
    simp only [updateFirst] at hc
    by_cases hx : p x = true
    · rw [if_pos hx] at hc
      rcases List.mem_cons.mp hc with rfl | hmem
      · exact hf x (by simp) hx
      · exact h c (List.mem_cons_of_mem x hmem)
    · rw [if_neg hx] at hc
      rcases List.mem_cons.mp hc with rfl | hmem
      · exact h c (by simp)
      · exact ih (fun c' hc' => h c' (List.mem_cons_of_mem x hc'))
          (fun c' hc' hp => hf c' (List.mem_cons_of_mem x hc') hp) c hmem

theorem tagsWF_applyOp (o : Op) (d : ClawmarksData)
    (h1 : tagsWF d) (h2 : opTagsOK o) : tagsWF (applyOp o d) := by
  cases o with
  | createTrail name description newId ts =>
    intro c hc
    exact h1 c hc
  | archiveTrail trailId =>
    intro c hc
    simp only [applyOp, archiveTrail] at hc
    rcases hf : d.trails.find? (fun t => decide (t.id = trailId)) with _ | t <;>
      simp only [hf] at hc <;> exact h1 c hc
  | deleteTrail trailId =>
    intro c hc
    simp only [applyOp, deleteTrail] at hc
    split at hc
    · exact h1 c (List.mem_of_mem_filter hc)
    · exact h1 c hc
  | addClawmark p newId ts =>
    intro c hc
    simp only [applyOp, addClawmark] at hc
    rcases hf : d.trails.find? (fun t => decide (t.id = p.trail_id))
        with _ | t <;> simp only [hf] at hc
    · exact h1 c hc
    · rcases List.mem_append.mp hc with hmem | hmem
      · exact h1 c hmem
      · rw [List.mem_singleton.mp hmem]
        simp only [opTagsOK] at h2
        rcases hp : p.tags with _ | ts'
        · exact ⟨by simp, List.nodup_nil⟩
        · rw [hp] at h2
          simpa [hp] using h2
  | updateClawmark clawmarkId u =>
    intro c hc
    simp only [applyOp, updateClawmark] at hc
    rcases hf : d.clawmarks.find? (fun c => decide (c.id = clawmarkId))
        with _ | c0 <;> simp only [hf] at hc
    · exact h1 c hc
    · refine tagsWF_updateFirst _ _ _ h1 ?_ c hc
      intro c' hc' _
      simp only [applyUpdates]
      rcases hu : u.tags with _ | ts'
      · simpa [hu] using h1 c' hc'
      · simp only [opTagsOK, hu, optTagsOK] at h2
        simpa [hu] using h2
  | deleteClawmark clawmarkId =>
    intro c hc
    simp only [applyOp, deleteClawmark] at hc
    split at hc
    · simp only [List.mem_map] at hc
      obtain ⟨c', hc', rfl⟩ := hc
      exact h1 c' (mem_removeFirst _ _ _ hc')
    · exact h1 c hc
  | linkClawmarks sourceId targetId =>
    intro c hc
    simp only [applyOp, linkClawmarks] at hc
    rcases hfs : d.clawmarks.find? (fun c => decide (c.id = sourceId))
        with _ | s0 <;>
      rcases hft : d.clawmarks.find? (fun c => decide (c.id = targetId))
        with _ | t0 <;> simp only [hfs, hft] at hc
    · exact h1 c hc
    · exact h1 c hc
    · exact h1 c hc
    · split at hc
      · exact h1 c hc
      · refine tagsWF_updateFirst (fun c => decide (c.id = sourceId))
          (fun c => { c with references := c.references ++ [targetId] })
          d.clawmarks h1 (fun c' hc' _ => h1 c' hc') c ?_
        exact hc
  | unlinkClawmarks sourceId targetId =>
    intro c hc
    simp only [applyOp, unlinkClawmarks] at hc
    rcases hfs : d.clawmarks.find? (fun c => decide (c.id = sourceId))
        with _ | s0 <;> simp only [hfs] at hc
    · exact h1 c hc
    · split at hc
      · refine tagsWF_updateFirst (fun c => decide (c.id = sourceId))
          (fun c => { c with references := c.references.erase targetId })
          d.clawmarks h1 (fun c' hc' _ => h1 c' hc') c ?_
        exact hc
      · exact h1 c hc
  | addTagToClawmark clawmarkId tag =>
    intro c hc
    simp only [applyOp, addTagToClawmark] at hc
    rcases hf : d.clawmarks.find? (fun c => decide (c.id = clawmarkId))
        with _ | c0 <;> simp only [hf] at hc
    · exact h1 c hc
    · split at hc
      · exact h1 c hc
      · rename_i hmem
        obtain ⟨pre, post, heq, hpre, hp⟩ := find?_some_split _ _ _ hf
        rw [heq, updateFirst_first _ _ _ _ _ hpre hp] at hc
        rcases List.mem_append.mp hc with hin | hin
        · exact h1 c (by rw [heq]; exact List.mem_append_left _ hin)
        · rcases List.mem_cons.mp hin with rfl | hin
          · exact tagsOK_append_normalized _ _
              (h1 c0 (by rw [heq]; simp)) hmem
          · exact h1 c (by rw [heq]; simp [hin])
  | removeTagFromClawmark clawmarkId tag =>
    intro c hc
    simp only [applyOp, removeTagFromClawmark] at hc
    rcases hf : d.clawmarks.find? (fun c => decide (c.id = clawmarkId))
        with _ | c0 <;> simp only [hf] at hc
    · exact h1 c hc
    · split at hc
      · exact tagsWF_updateFirst _ _ _ h1
          (fun c' hc' _ => tagsOK_erase _ _ (h1 c' hc')) c hc
      · exact h1 c hc

theorem tagsWF_foldl (ops : List Op) (d : ClawmarksData)
    (hd : tagsWF d) (h : ∀ o ∈ ops, opTagsOK o) :
    tagsWF (ops.foldl (fun d o => applyOp o d) d) := by
  induction ops generalizing d with
  | nil => simpa using hd
  | cons o os ih =>
    simp only [List.foldl_cons]
    exact ih (applyOp o d) (tagsWF_applyOp o d hd (h o (by simp)))
      (fun o' ho' => h o' (by simp [ho']))

/-- C2 counterexample: an addClawmark whose tags argument is the duplicate,
unprefixed list ["x", "x"] reaches a document violating the tag
invariant — the argument is stored verbatim. -/
theorem reachable_tags_counterexample : ¬ tagsWF (runOps badOps) := by
  decide

/-- C2 (amended): every document reached by a sequence of domain
operations in which each tags argument handed verbatim to addClawmark or
updateClawmark is itself hash-prefixed and duplicate-free has only
hash-prefixed, duplicate-free tag lists; tags added through
addTagToClawmark are always normalized and deduplicated. -/
theorem reachable_tags_normalized (ops : List Op)
    (h : ∀ o ∈ ops, opTagsOK o) : tagsWF (runOps ops) :=
  tagsWF_foldl ops DEFAULT_CLAWMARKS_DATA
    (by intro c hc; simp [DEFAULT_CLAWMARKS_DATA] at hc) h

/-- C2 witness: a sequence exercising every mutation with well-formed
verbatim tags arguments. -/
theorem reachable_tags_normalized_witness :
    (∀ o ∈ goodOps, opTagsOK o) ∧ tagsWF (runOps goodOps) :=
  ⟨by decide, reachable_tags_normalized goodOps (by decide)⟩
